import Mathlib

/-!
Shallow embedding of the mail ingestion and folder-state engine of the
Email-Repo backend (Express + PostgreSQL).  The current backend generation is
`mailRoutes.js` (mounted by the server in `part_005`), backed by the `mails`
table of migration 001 (rich schema) with the composite unique constraint of
migration 004 and the flag columns of migrations 006 / 007.  The legacy
generation (`backend/index.js`, `dbService.js`, `imapService.js`) drives the
periodic IMAP sync.  Machine rows are modelled as Lean structures, the
database as a list of rows, and each HTTP endpoint as a pure function from a
store (plus request parameters) to a response and a new store.
-/

namespace EmailRepo

/-- A row of the `mails` table (migration 001 rich schema, plus `is_read`
from migration 006, `is_starred`, and `is_spam` from migration 007).
`createdAt` is modelled as a natural number timestamp. -/
structure Mail where
  id : Nat
  messageId : String
  fromAddress : String
  toAddresses : List String
  subject : String
  bodyText : String
  folder : String
  owner : String
  isRead : Bool
  isStarred : Bool
  isSpam : Bool
  createdAt : Nat
deriving Repr, DecidableEq

/-- The `mails` table: a list of rows. -/
abbrev Store := List Mail

/-- Two rows agree on the composite key of migration 004:
`UNIQUE (message_id, folder, owner)`. -/
def sameKey (a b : Mail) : Bool :=
  a.messageId == b.messageId && a.folder == b.folder && a.owner == b.owner

/-- The composite unique constraint `mails_message_id_folder_owner_unique`
(migration 004) holds of the table: no two rows share
(`message_id`, `folder`, `owner`). -/
def uniqueKeyOk : Store → Bool
  | [] => true
  | m :: rest => rest.all (fun r => !(sameKey m r)) && uniqueKeyOk rest

/-- `mailRoutes.js` qualifies a bare username with the configured mail
domain: `user.includes('@') ? user : user + '@' + mailDomain`. -/
def qualifyEmail (user domain : String) : String :=
  if user.contains '@' then user else user ++ "@" ++ domain

/-- The ownership check repeated at every mutation endpoint of
`mailRoutes.js`: the request passes iff `mail.owner === user` or the
qualified email appears in `mail.to_addresses`. -/
def canAccess (m : Mail) (user userEmail : String) : Bool :=
  m.owner == user || m.toAddresses.contains userEmail

/-- `SELECT ... FROM mails WHERE id=$1` returning the first match. -/
def findMail (s : Store) (id : Nat) : Option Mail :=
  s.find? (fun m => m.id == id)

/-- Response statuses used by the single-mail mutation endpoints:
200 / 400 / 403 / 404 / 500. -/
inductive Resp where
  | ok
  | badRequest
  | forbidden
  | notFound
  | serverError
deriving Repr, DecidableEq

/-- `PATCH /mail/:id/read`: permission check (404 if absent, 403 if neither
owner nor recipient), then `UPDATE mails SET is_read = true WHERE id = $1`. -/
def markRead (s : Store) (user domain : String) (id : Nat) : Resp × Store :=
  let userEmail := qualifyEmail user domain
  match findMail s id with
  | none => (.notFound, s)
  | some mail =>
    if !(canAccess mail user userEmail) then (.forbidden, s)
    else (.ok, s.map (fun m => if m.id == id then { m with isRead := true } else m))

/-- `PATCH /mail/:id/unread`: permission check, then
`UPDATE mails SET is_read = false WHERE id = $1`. -/
def markUnread (s : Store) (user domain : String) (id : Nat) : Resp × Store :=
  let userEmail := qualifyEmail user domain
  match findMail s id with
  | none => (.notFound, s)
  | some mail =>
    if !(canAccess mail user userEmail) then (.forbidden, s)
    else (.ok, s.map (fun m => if m.id == id then { m with isRead := false } else m))

/-- `PATCH /mail/:id/star`: permission check, then
`UPDATE mails SET is_starred = $1 WHERE id = $2`. -/
def setStar (s : Store) (user domain : String) (id : Nat) (isStarred : Bool) : Resp × Store :=
  let userEmail := qualifyEmail user domain
  match findMail s id with
  | none => (.notFound, s)
  | some mail =>
    if !(canAccess mail user userEmail) then (.forbidden, s)
    else (.ok, s.map (fun m => if m.id == id then { m with isStarred := isStarred } else m))

/-- `POST /mail/:id/move`.  The route first rejects a missing / falsy target
(`if (!to) return 400`), then looks the row up (404), checks ownership
(403), and finally runs
`UPDATE mails SET folder = $1, is_spam = ($1 = 'SPAM') WHERE id = $3`.
PostgreSQL aborts the update (caught as a 500, no state change) if it would
violate the unique constraint of migration 004.  No check whatever is made
that the target belongs to the folder enumeration. -/
def moveMail (s : Store) (user domain : String) (id : Nat) (target : Option String) :
    Resp × Store :=
  match target with
  | none => (.badRequest, s)
  | some t =>
    if t == "" then (.badRequest, s)
    else
      let userEmail := qualifyEmail user domain
      match findMail s id with
      | none => (.notFound, s)
      | some mail =>
        if !(canAccess mail user userEmail) then (.forbidden, s)
        else
          let s' := s.map (fun m =>
            if m.id == id then { m with folder := t, isSpam := (t == "SPAM") } else m)
          if uniqueKeyOk s' then (.ok, s') else (.serverError, s)

/-- `DELETE /mail/:id` (soft delete): permission check, then
`UPDATE mails SET folder = 'TRASH' WHERE id = $2`.  Note that `is_spam` is
not touched. -/
def softDelete (s : Store) (user domain : String) (id : Nat) : Resp × Store :=
  let userEmail := qualifyEmail user domain
  match findMail s id with
  | none => (.notFound, s)
  | some mail =>
    if !(canAccess mail user userEmail) then (.forbidden, s)
    else
      let s' := s.map (fun m => if m.id == id then { m with folder := "TRASH" } else m)
      if uniqueKeyOk s' then (.ok, s') else (.serverError, s)

/-- `DELETE /mail/:id/permanent`: permission check, then
`DELETE FROM mails WHERE id = $1`. -/
def permanentDelete (s : Store) (user domain : String) (id : Nat) : Resp × Store :=
  let userEmail := qualifyEmail user domain
  match findMail s id with
  | none => (.notFound, s)
  | some mail =>
    if !(canAccess mail user userEmail) then (.forbidden, s)
    else (.ok, s.filter (fun m => !(m.id == id)))

/-- Response of `POST /mail/bulk`: on success the route returns
`{ ok: true, count: allowedIds.length }`. -/
inductive BulkResp where
  | ok (count : Nat)
  | badRequest
  | forbidden
  | serverError
deriving Repr, DecidableEq

/-- The rows of the store eligible for a bulk action: the ids requested that
the caller owns or receives, as selected by
`SELECT id FROM mails WHERE id = ANY($1) AND (owner = $2 OR $3 = ANY(to_addresses))`. -/
def bulkEligible (s : Store) (user userEmail : String) (ids : List Nat) : List Mail :=
  s.filter (fun m => ids.contains m.id && canAccess m user userEmail)

/-- `POST /mail/bulk`.  Empty `ids` is a 400; an empty eligible set is a 403
(`No permission for these emails`); otherwise the action is applied to the
eligible ids only and the returned count is `allowedIds.length`.  The
`delete` and `move` actions update `folder` without touching `is_spam`;
`spam` sets both; `read` / `unread` set `is_read`; any other action string
is a 400.  Folder-changing updates abort (500, no change) on a unique
constraint violation. -/
def bulkApply (s : Store) (user domain : String) (ids : List Nat)
    (action : String) (target : Option String) : BulkResp × Store :=
  if ids.isEmpty then (.badRequest, s)
  else
    let userEmail := qualifyEmail user domain
    let allowedIds := (bulkEligible s user userEmail ids).map (·.id)
    if allowedIds.isEmpty then (.forbidden, s)
    else if action == "delete" then
      let s' := s.map (fun m =>
        if allowedIds.contains m.id then { m with folder := "TRASH" } else m)
      if uniqueKeyOk s' then (.ok allowedIds.length, s') else (.serverError, s)
    else if action == "spam" then
      let s' := s.map (fun m =>
        if allowedIds.contains m.id then { m with folder := "SPAM", isSpam := true } else m)
      if uniqueKeyOk s' then (.ok allowedIds.length, s') else (.serverError, s)
    else if action == "move" then
      match target with
      | none => (.badRequest, s)
      | some t =>
        if t == "" then (.badRequest, s)
        else
          let s' := s.map (fun m =>
            if allowedIds.contains m.id then { m with folder := t } else m)
          if uniqueKeyOk s' then (.ok allowedIds.length, s') else (.serverError, s)
    else if action == "read" || action == "unread" then
      (.ok allowedIds.length,
       s.map (fun m =>
         if allowedIds.contains m.id then { m with isRead := (action == "read") } else m))
    else (.badRequest, s)

/-- The five counters returned by `GET /mail/counts`. -/
structure Counts where
  inbox : Nat
  sent : Nat
  important : Nat
  spam : Nat
  trash : Nat
deriving Repr, DecidableEq

/-- `GET /mail/counts`: over the rows with `owner = $1 OR $2 = ANY(to_addresses)`,
`inbox` and `sent` are filtered on `is_read = false`, `important` on
`is_starred = true AND is_read = false`, while `spam` and `trash` are
`COUNT(*) FILTER (WHERE folder = 'SPAM')` respectively `'TRASH'` with no
read filter. -/
def countsFor (s : Store) (user domain : String) : Counts :=
  let userEmail := qualifyEmail user domain
  let rows := s.filter (fun m => m.owner == user || m.toAddresses.contains userEmail)
  { inbox := (rows.filter (fun m => m.folder == "INBOX" && !m.isRead)).length
  , sent := (rows.filter (fun m => m.folder == "SENT" && !m.isRead)).length
  , important := (rows.filter (fun m => m.isStarred && !m.isRead)).length
  , spam := (rows.filter (fun m => m.folder == "SPAM")).length
  , trash := (rows.filter (fun m => m.folder == "TRASH")).length }

/-- The `WHERE` clause of `GET /mail/inbox`:
`owner = $1 OR $2 = ANY(to_addresses)` — note there is no condition on
`folder`. -/
def inboxCond (user userEmail : String) (m : Mail) : Bool :=
  m.owner == user || m.toAddresses.contains userEmail

/-- Newest-first ordering on rows (`ORDER BY created_at DESC`). -/
def newerEq (a b : Mail) : Prop := b.createdAt ≤ a.createdAt

instance : DecidableRel newerEq := fun a b =>
  inferInstanceAs (Decidable (b.createdAt ≤ a.createdAt))

instance : IsTotal Mail newerEq :=
  ⟨fun a b => (Nat.le_total b.createdAt a.createdAt)⟩

instance : IsTrans Mail newerEq :=
  ⟨fun _ _ _ h1 h2 => Nat.le_trans h2 h1⟩

/-- `GET /mail/inbox`: rows matching the owner-or-recipient condition,
ordered by `created_at DESC`, capped by `LIMIT 200`.  (The IMAP pre-sync the
route attempts first is caught non-fatally and does not affect the query
semantics modelled here.) -/
def listInbox (s : Store) (user domain : String) : List Mail :=
  let userEmail := qualifyEmail user domain
  (List.insertionSort newerEq (s.filter (inboxCond user userEmail))).take 200

/-- Outcome of the deduplicating ingest writer: a duplicate is a tagged
normal outcome, not an error (there is no error constructor). -/
inductive IngestOutcome where
  | inserted
  | alreadyExists
deriving Repr, DecidableEq

/-- Modelled from the spec: the deduplicating ingest writer of the current
backend generation (the `dbService` / `mailService` insert invoked by
`smtpReceiver.js` and by `fetchImapEmails`, referenced from `mailRoutes.js`
and `part_005`) is not under `src/`; only its callers and the unique
constraint it relies on (migration 004) are.  Per spec sections 4.1, 4.2 and
design note 9, it performs an insert and treats a violation of
`mails_message_id_folder_owner_unique` as the tagged outcome
`AlreadyExists`, raising no error for a duplicate. -/
def insertIfAbsent (s : Store) (m : Mail) : IngestOutcome × Store :=
  if s.any (fun r => sameKey r m) then (.alreadyExists, s)
  else (.inserted, s ++ [m])

/-- The reachable states of the `mails` table: starting from the empty
table, rows are created only by the ingest writer and mutated only by the
endpoints of `mailRoutes.js`. -/
inductive Reachable : Store → Prop where
  | empty : Reachable []
  | ingest {s} (m : Mail) : Reachable s → Reachable (insertIfAbsent s m).2
  | read {s} (u d : String) (i : Nat) : Reachable s → Reachable (markRead s u d i).2
  | unread {s} (u d : String) (i : Nat) : Reachable s → Reachable (markUnread s u d i).2
  | star {s} (u d : String) (i : Nat) (b : Bool) : Reachable s → Reachable (setStar s u d i b).2
  | move {s} (u d : String) (i : Nat) (t : Option String) :
      Reachable s → Reachable (moveMail s u d i t).2
  | softDel {s} (u d : String) (i : Nat) : Reachable s → Reachable (softDelete s u d i).2
  | permDel {s} (u d : String) (i : Nat) : Reachable s → Reachable (permanentDelete s u d i).2
  | bulk {s} (u d : String) (ids : List Nat) (a : String) (t : Option String) :
      Reachable s → Reachable (bulkApply s u d ids a t).2

/-- A row of the legacy `mails` table (migration `001_create_mails.sql`:
`from_email`, `to_email`, `subject`, `body`, `date`), the table written by
the legacy `saveEmailToDB`. -/
structure LegacyRow where
  fromEmail : String
  toEmail : String
  subject : String
  body : String
  date : Nat
deriving Repr, DecidableEq

/-- A message held by the remote IMAP mailbox, with the protocol-level
`\\Seen` flag. -/
structure RemoteMsg where
  uid : Nat
  fromText : String
  toText : String
  subjectText : String
  bodyRaw : String
  date : Nat
  seen : Bool
deriving Repr, DecidableEq

/-- The failure environment of one sync cycle: which mailboxes fail to
connect or authenticate, and which store writes fail. -/
structure SyncEnv where
  connectFails : String → Bool
  saveFails : String → Nat → Bool

/-- `simpleParser` output as assembled by `syncMailbox` into the object
passed to `saveEmailToDB`. -/
def parseEmail (r : RemoteMsg) : LegacyRow :=
  { fromEmail := r.fromText
  , toEmail := r.toText
  , subject := r.subjectText
  , body := r.bodyRaw
  , date := r.date }

/-- The `for (let res of results)` loop of `syncMailbox`: each fetched
message is parsed and handed to `saveEmailToDB`.  A failing store write
throws, which the surrounding `catch` absorbs, so the loop stops at the
first failure with the earlier writes kept. -/
def saveLoop (fails : Nat → Bool) (store : List LegacyRow) :
    List RemoteMsg → List LegacyRow
  | [] => store
  | r :: rest =>
    if fails r.uid then store
    else saveLoop fails (store ++ [parseEmail r]) rest

/-- `syncMailbox(userEmail, password)` from `imapService.js`.  The whole
body is wrapped in `try/catch` with the error only logged, so the function
never raises.  On a successful connection it searches `['UNSEEN']` with
`fetchOptions.markSeen: true`: every matched message is flagged `\\Seen`
**at fetch time**, before the save loop runs, regardless of whether its
`saveEmailToDB` call later succeeds. -/
def syncMailbox (env : SyncEnv) (userEmail : String)
    (remote : List RemoteMsg) (store : List LegacyRow) :
    List RemoteMsg × List LegacyRow :=
  if env.connectFails userEmail then (remote, store)
  else
    let results := remote.filter (fun m => !m.seen)
    let remote' := remote.map (fun m => { m with seen := true })
    (remote', saveLoop (env.saveFails userEmail) store results)

/-- The two mailboxes hard-coded in the legacy `index.js` cron job. -/
def cronMailboxes : List String :=
  ["bob@pilot180.local", "alice@pilot180.local"]

/-- The `cron.schedule` callback of the legacy `index.js`: one tick awaits
`syncMailbox` for each configured mailbox in order.  Since `syncMailbox`
never raises, every mailbox in the list is synced on every tick. -/
def runCycle (env : SyncEnv) (remotes : String → List RemoteMsg)
    (store : List LegacyRow) : (String → List RemoteMsg) × List LegacyRow :=
  cronMailboxes.foldl
    (fun acc user =>
      let r := syncMailbox env user (acc.1 user) acc.2
      (fun u => if u == user then r.1 else acc.1 u, r.2))
    (remotes, store)

/-- Number of rows of the store sharing a given row's composite key. -/
def keyCount (s : Store) (m : Mail) : Nat :=
  (s.filter (fun r => sameKey r m)).length

/-- Following the spec's words (section 4.6): the number of **unread**
messages of the owner's view currently in folder `f`.  Stated separately
from `countsFor` (which embeds the SQL of `GET /mail/counts`) so the two
can be compared. -/
def specUnreadInFolder (s : Store) (user domain f : String) : Nat :=
  (s.filter (fun m =>
    inboxCond user (qualifyEmail user domain) m && m.folder == f && !m.isRead)).length

/-- Following the spec's words: the number of unread starred messages of
the owner's view, regardless of folder (the virtual "important" view). -/
def specUnreadStarred (s : Store) (user domain : String) : Nat :=
  (s.filter (fun m =>
    inboxCond user (qualifyEmail user domain) m && m.isStarred && !m.isRead)).length

/-- All messages (read or unread) of the owner's view currently in folder
`f`. -/
def allInFolder (s : Store) (user domain f : String) : Nat :=
  (s.filter (fun m =>
    inboxCond user (qualifyEmail user domain) m && m.folder == f)).length

/-- Row ids are pairwise distinct — the `id BIGSERIAL PRIMARY KEY` of the
`mails` table. -/
def idsDistinct (s : Store) : Prop :=
  s.Pairwise (fun a b => a.id ≠ b.id)

/-! ### Concrete fixtures used by witnesses and counterexamples -/

/-- A concrete inbox mail owned by `bob`. -/
def baseMail : Mail :=
  { id := 1, messageId := "m1", fromAddress := "alice@pilot180.local",
    toAddresses := ["bob@pilot180.local"], subject := "hello",
    bodyText := "body", folder := "INBOX", owner := "bob",
    isRead := false, isStarred := false, isSpam := false, createdAt := 10 }

/-- The same mail filed in SPAM with the denormalized flag set. -/
def spamMail : Mail :=
  { baseMail with folder := "SPAM", isSpam := true }

/-- A spam mail that has been read. -/
def readSpamMail : Mail :=
  { spamMail with isRead := true }

/-- A mail owned by `alice` with no recipients, inaccessible to `bob`. -/
def aliceOnlyMail : Mail :=
  { baseMail with
    id := 2
    messageId := "m2"
    owner := "alice"
    toAddresses := [] }

/-- A concrete unseen remote IMAP message. -/
def remoteFixture : RemoteMsg :=
  { uid := 7, fromText := "carol@example.com", toText := "bob@pilot180.local",
    subjectText := "offer", bodyRaw := "raw body", date := 5, seen := false }

/-- A sync environment in which every store write fails. -/
def envSaveFail : SyncEnv :=
  { connectFails := fun _ => false, saveFails := fun _ _ => true }

/-- A sync environment in which only bob's mailbox connection fails. -/
def envBobDown : SyncEnv :=
  { connectFails := fun u => u == "bob@pilot180.local",
    saveFails := fun _ _ => false }

/-! ### Helper lemmas about the unique-key invariant -/

theorem sameKey_refl (m : Mail) : sameKey m m = true := by
  simp [sameKey]

theorem sameKey_of_fields {a b : Mail} (h1 : a.messageId = b.messageId)
    (h2 : a.folder = b.folder) (h3 : a.owner = b.owner) :
    ∀ r : Mail, sameKey a r = sameKey b r := by
  intro r
  simp [sameKey, h1, h2, h3]

theorem sameKey_of_fields' {a b : Mail} (h1 : a.messageId = b.messageId)
    (h2 : a.folder = b.folder) (h3 : a.owner = b.owner) :
    ∀ r : Mail, sameKey r a = sameKey r b := by
  intro r
  simp [sameKey, h1, h2, h3]

/-- Filtering the table (deleting rows) preserves the unique constraint. -/
theorem uniqueKeyOk_filter (p : Mail → Bool) :
    ∀ s : Store, uniqueKeyOk s = true → uniqueKeyOk (s.filter p) = true := by
  intro s
  induction s with
  | nil => intro _; rfl
  | cons a rest ih =>
    intro h
    simp only [uniqueKeyOk, Bool.and_eq_true] at h
    by_cases hp : p a = true
    · simp only [List.filter_cons, hp, if_pos, uniqueKeyOk, Bool.and_eq_true]
      refine ⟨?_, ih h.2⟩
      rw [List.all_eq_true]
      intro r hr
      exact List.all_eq_true.mp h.1 r (List.mem_filter.mp hr).1
    · simp only [List.filter_cons, hp]
      exact ih h.2

/-- A map that does not touch the key columns preserves the unique
constraint. -/
theorem uniqueKeyOk_map (f : Mail → Mail)
    (hf : ∀ x, (f x).messageId = x.messageId ∧ (f x).folder = x.folder ∧
      (f x).owner = x.owner) :
    ∀ s : Store, uniqueKeyOk (s.map f) = uniqueKeyOk s := by
  intro s
  have hkey : ∀ a r : Mail, sameKey (f a) (f r) = sameKey a r := by
    intro a r
    rw [sameKey_of_fields (hf a).1 (hf a).2.1 (hf a).2.2,
        sameKey_of_fields' (hf r).1 (hf r).2.1 (hf r).2.2]
  induction s with
  | nil => rfl
  | cons a rest ih =>
    simp only [List.map_cons, uniqueKeyOk, List.all_map, ih]
    congr 1
    have hfun : ((fun r => !(sameKey (f a) r)) ∘ f) = (fun r => !(sameKey a r)) := by
      funext r
      simp [Function.comp, hkey]
    rw [hfun]

/-- Appending a row with a fresh key preserves the unique constraint. -/
theorem uniqueKeyOk_append (m : Mail) :
    ∀ s : Store, uniqueKeyOk s = true → (∀ r ∈ s, sameKey r m = false) →
      uniqueKeyOk (s ++ [m]) = true := by
  intro s
  induction s with
  | nil => intro _ _; simp [uniqueKeyOk]
  | cons a rest ih =>
    intro h hfresh
    simp only [uniqueKeyOk, Bool.and_eq_true] at h
    simp only [List.cons_append, uniqueKeyOk, Bool.and_eq_true]
    refine ⟨?_, ih h.2 (fun r hr => hfresh r (List.mem_cons_of_mem a hr))⟩
    rw [List.all_eq_true]
    intro r hr
    rcases List.mem_append.mp hr with hl | hr1
    · exact List.all_eq_true.mp h.1 r hl
    · rcases List.mem_singleton.mp hr1 with rfl
      have := hfresh a (List.mem_cons_self a rest)
      -- sameKey a m = false, and sameKey a r with r = m
      simp [this]

/-- The ingest writer preserves the unique constraint. -/
theorem uniqueKeyOk_insertIfAbsent (s : Store) (m : Mail)
    (h : uniqueKeyOk s = true) : uniqueKeyOk (insertIfAbsent s m).2 = true := by
  unfold insertIfAbsent
  by_cases hany : s.any (fun r => sameKey r m) = true
  · simp [hany, h]
  · simp only [hany]
    refine uniqueKeyOk_append m s h (fun r hr => ?_)
    cases hsk : sameKey r m
    · rfl
    · exact absurd (List.any_eq_true.mpr ⟨r, hr, hsk⟩) hany

theorem uniqueKeyOk_guarded (s s2 : Store) (r1 r2 : Resp)
    (h : uniqueKeyOk s = true) :
    uniqueKeyOk (if uniqueKeyOk s2 then (r1, s2) else (r2, s)).2 = true := by
  by_cases hg : uniqueKeyOk s2 = true
  · simp [hg]
  · simp only [hg]
    simp [Bool.not_eq_true] at hg
    simp [hg, h]

theorem uniqueKeyOk_map' (f : Mail → Mail)
    (hf : ∀ x, (f x).messageId = x.messageId ∧ (f x).folder = x.folder ∧
      (f x).owner = x.owner)
    (s : Store) (h : uniqueKeyOk s = true) : uniqueKeyOk (s.map f) = true := by
  rw [uniqueKeyOk_map f hf]
  exact h

theorem uniqueKeyOk_markRead (s : Store) (u d : String) (i : Nat)
    (h : uniqueKeyOk s = true) : uniqueKeyOk (markRead s u d i).2 = true := by
  unfold markRead
  dsimp only
  repeat' split
  all_goals first
    | exact h
    | assumption
    | exact uniqueKeyOk_map' _ (fun x => by refine ⟨?_, ?_, ?_⟩ <;> (split <;> rfl)) s h

theorem uniqueKeyOk_markUnread (s : Store) (u d : String) (i : Nat)
    (h : uniqueKeyOk s = true) : uniqueKeyOk (markUnread s u d i).2 = true := by
  unfold markUnread
  dsimp only
  repeat' split
  all_goals first
    | exact h
    | assumption
    | exact uniqueKeyOk_map' _ (fun x => by refine ⟨?_, ?_, ?_⟩ <;> (split <;> rfl)) s h

theorem uniqueKeyOk_setStar (s : Store) (u d : String) (i : Nat) (b : Bool)
    (h : uniqueKeyOk s = true) : uniqueKeyOk (setStar s u d i b).2 = true := by
  unfold setStar
  dsimp only
  repeat' split
  all_goals first
    | exact h
    | assumption
    | exact uniqueKeyOk_map' _ (fun x => by refine ⟨?_, ?_, ?_⟩ <;> (split <;> rfl)) s h

theorem uniqueKeyOk_moveMail (s : Store) (u d : String) (i : Nat)
    (t : Option String) (h : uniqueKeyOk s = true) :
    uniqueKeyOk (moveMail s u d i t).2 = true := by
  unfold moveMail
  dsimp only
  repeat' split
  all_goals first
    | exact h
    | assumption

theorem uniqueKeyOk_softDelete (s : Store) (u d : String) (i : Nat)
    (h : uniqueKeyOk s = true) : uniqueKeyOk (softDelete s u d i).2 = true := by
  unfold softDelete
  dsimp only
  repeat' split
  all_goals first
    | exact h
    | assumption

theorem uniqueKeyOk_permanentDelete (s : Store) (u d : String) (i : Nat)
    (h : uniqueKeyOk s = true) : uniqueKeyOk (permanentDelete s u d i).2 = true := by
  unfold permanentDelete
  dsimp only
  repeat' split
  all_goals first
    | exact h
    | assumption
    | exact uniqueKeyOk_filter _ s h

theorem uniqueKeyOk_bulkApply (s : Store) (u d : String) (ids : List Nat)
    (a : String) (t : Option String) (h : uniqueKeyOk s = true) :
    uniqueKeyOk (bulkApply s u d ids a t).2 = true := by
  unfold bulkApply
  dsimp only
  repeat' split
  all_goals first
    | exact h
    | assumption
    | exact uniqueKeyOk_map' _ (fun x => by refine ⟨?_, ?_, ?_⟩ <;> (split <;> rfl)) s h

/-- Claim C3: in every reachable store state, no two stored mail rows share
the same (`messageId`, `folder`, `owner`) tuple — the composite unique
constraint of migration 004 holds after every insert and every mutation
(PostgreSQL aborts, with no state change, any statement that would violate
it, and the ingest writer treats the violation as a silent duplicate). -/
theorem reachable_unique_key (s : Store) (h : Reachable s) :
    uniqueKeyOk s = true := by
  induction h with
  | empty => rfl
  | ingest m _ ih => exact uniqueKeyOk_insertIfAbsent _ m ih
  | read u d i _ ih => exact uniqueKeyOk_markRead _ u d i ih
  | unread u d i _ ih => exact uniqueKeyOk_markUnread _ u d i ih
  | star u d i b _ ih => exact uniqueKeyOk_setStar _ u d i b ih
  | move u d i t _ ih => exact uniqueKeyOk_moveMail _ u d i t ih
  | softDel u d i _ ih => exact uniqueKeyOk_softDelete _ u d i ih
  | permDel u d i _ ih => exact uniqueKeyOk_permanentDelete _ u d i ih
  | bulk u d ids a t _ ih => exact uniqueKeyOk_bulkApply _ u d ids a t ih

/-- Claim C3 witness: the invariant evaluated on a concrete reachable
state. -/
theorem reachable_unique_key_witness :
    Reachable (insertIfAbsent [] baseMail).2 ∧
    uniqueKeyOk (insertIfAbsent [] baseMail).2 = true :=
  ⟨Reachable.ingest baseMail Reachable.empty,
   reachable_unique_key _ (Reachable.ingest baseMail Reachable.empty)⟩

/-- Claim C1: ingesting the same parsed message (same `messageId`) twice
into the same (folder, owner) yields exactly one stored row, and the second
ingestion completes without raising an error — the duplicate is the silent
tagged outcome `alreadyExists`, not a constraint violation or Conflict
surfaced to the caller. -/
theorem ingest_duplicate_suppressed (s : Store) (m : Mail)
    (h : keyCount s m = 0) :
    (insertIfAbsent (insertIfAbsent s m).2 m).1 = IngestOutcome.alreadyExists ∧
    (insertIfAbsent (insertIfAbsent s m).2 m).2 = (insertIfAbsent s m).2 ∧
    keyCount (insertIfAbsent (insertIfAbsent s m).2 m).2 m = 1 := by
  have hfil : s.filter (fun r => sameKey r m) = [] :=
    List.length_eq_zero.mp h
  have hall : ∀ r ∈ s, sameKey r m = false := by
    intro r hr
    have hnot := List.filter_eq_nil_iff.mp hfil r hr
    cases hsk : sameKey r m
    · rfl
    · exact absurd hsk hnot
  have hany : s.any (fun r => sameKey r m) = false := by
    cases hA : s.any (fun r => sameKey r m)
    · rfl
    · obtain ⟨r, hr, hsk⟩ := List.any_eq_true.mp hA
      rw [hall r hr] at hsk
      cases hsk
  have h1 : insertIfAbsent s m = (.inserted, s ++ [m]) := by
    unfold insertIfAbsent
    rw [hany]
    simp
  have h2 : (s ++ [m]).any (fun r => sameKey r m) = true := by
    rw [List.any_append]
    simp [sameKey_refl]
  have h3 : insertIfAbsent (s ++ [m]) m = (.alreadyExists, s ++ [m]) := by
    unfold insertIfAbsent
    rw [h2]
    simp
  rw [h1]
  refine ⟨by rw [h3], by rw [h3], ?_⟩
  rw [h3]
  simp [keyCount, List.filter_append, hfil, sameKey_refl]

/-- Claim C1 witness: the double ingestion evaluated from the empty store. -/
theorem ingest_duplicate_suppressed_witness :
    keyCount [] baseMail = 0 ∧
    ((insertIfAbsent (insertIfAbsent [] baseMail).2 baseMail).1 =
        IngestOutcome.alreadyExists ∧
      (insertIfAbsent (insertIfAbsent [] baseMail).2 baseMail).2 =
        (insertIfAbsent [] baseMail).2 ∧
      keyCount (insertIfAbsent (insertIfAbsent [] baseMail).2 baseMail).2
        baseMail = 1) :=
  ⟨by decide, ingest_duplicate_suppressed [] baseMail (by decide)⟩

theorem seenTrue_idem (m : RemoteMsg) (h : m.seen = true) :
    ({ m with seen := true } : RemoteMsg) = m := by
  cases m
  simp_all

/-- Claim C2 counterexample: with a store write that fails, `syncMailbox`
still marks the fetched message seen (because `fetchOptions.markSeen: true`
flags it at fetch time), so the message does not remain unseen remotely:
here the save of the only unseen message fails (nothing is stored) yet the
message comes out flagged seen, contradicting the claimed
seen-only-after-successful-store ordering. -/
theorem imap_seen_despite_failed_save :
    (syncMailbox envSaveFail "bob@pilot180.local" [remoteFixture] []).2 = [] ∧
    (syncMailbox envSaveFail "bob@pilot180.local" [remoteFixture] []).1 =
      [{ remoteFixture with seen := true }] ∧
    remoteFixture.seen = false := by
  decide

/-- Claim C2 (amended): in every IMAP poll cycle with a successful
connection, every fetched message is marked seen on the remote mailbox at
fetch time (`markSeen: true`), before and independently of the local store
write; consequently a message whose store write fails is still seen, and a
subsequent cycle — whatever its store behaviour — re-fetches nothing and
leaves the store untouched. -/
theorem imap_marks_seen_at_fetch (env : SyncEnv) (u : String)
    (remote : List RemoteMsg) (store : List LegacyRow)
    (h : env.connectFails u = false) :
    (∀ m ∈ (syncMailbox env u remote store).1, m.seen = true) ∧
    (∀ env2 : SyncEnv, ∀ store2 : List LegacyRow, env2.connectFails u = false →
      syncMailbox env2 u (syncMailbox env u remote store).1 store2 =
        ((syncMailbox env u remote store).1, store2)) := by
  have hres : (syncMailbox env u remote store).1 =
      remote.map (fun m => { m with seen := true }) := by
    unfold syncMailbox
    rw [h]
    simp
  have hall : ∀ m ∈ (syncMailbox env u remote store).1, m.seen = true := by
    intro m hm
    rw [hres] at hm
    obtain ⟨x, _, rfl⟩ := List.mem_map.mp hm
    rfl
  refine ⟨hall, ?_⟩
  intro env2 store2 h2
  revert hall
  generalize (syncMailbox env u remote store).1 = L
  intro hall
  have hfil : L.filter (fun m => !m.seen) = [] := by
    refine List.filter_eq_nil_iff.mpr (fun x hx => ?_)
    rw [hall x hx]
    simp
  have hmap : L.map (fun m => { m with seen := true }) = L := by
    conv_rhs => rw [(List.map_id L).symm]
    exact List.map_congr_left (fun x hx => seenTrue_idem x (hall x hx))
  unfold syncMailbox
  rw [h2]
  simp only [Bool.false_eq_true, if_false]
  rw [hfil, hmap]
  rfl

/-- Claim C2 (amended) witness: the amended property evaluated on a
concrete mailbox with one unseen message. -/
theorem imap_marks_seen_at_fetch_witness :
    envBobDown.connectFails "alice@pilot180.local" = false ∧
    (∀ m ∈ (syncMailbox envBobDown "alice@pilot180.local" [remoteFixture] []).1,
      m.seen = true) :=
  ⟨by decide,
   (imap_marks_seen_at_fetch envBobDown "alice@pilot180.local" [remoteFixture] []
      (by decide)).1⟩

/-- Claim C9: a connection or authentication failure while syncing one
mailbox is caught and logged inside `syncMailbox` (a total function here:
no exception escapes to the cron callback), so the other mailbox of the
cycle is still fully synced: with bob's connection failing, bob's remote
state is untouched while alice's messages are all marked seen and her
unseen messages are run through the store-write loop. -/
theorem sync_failure_isolated (env : SyncEnv) (remotes : String → List RemoteMsg)
    (store : List LegacyRow)
    (hbob : env.connectFails "bob@pilot180.local" = true)
    (halice : env.connectFails "alice@pilot180.local" = false) :
    (runCycle env remotes store).1 "bob@pilot180.local" =
      remotes "bob@pilot180.local" ∧
    (runCycle env remotes store).1 "alice@pilot180.local" =
      (remotes "alice@pilot180.local").map (fun m => { m with seen := true }) ∧
    (runCycle env remotes store).2 =
      saveLoop (env.saveFails "alice@pilot180.local") store
        ((remotes "alice@pilot180.local").filter (fun m => !m.seen)) := by
  have hsb : syncMailbox env "bob@pilot180.local" (remotes "bob@pilot180.local")
      store = (remotes "bob@pilot180.local", store) := by
    unfold syncMailbox
    rw [hbob]
    simp
  unfold runCycle cronMailboxes
  simp only [List.foldl_cons, List.foldl_nil]
  rw [hsb]
  refine ⟨?_, ?_, ?_⟩ <;> simp [syncMailbox, halice]

/-- Claim C9 witness: the isolation property evaluated on a concrete
environment where bob's mailbox is down. -/
theorem sync_failure_isolated_witness :
    (runCycle envBobDown (fun _ => [remoteFixture]) []).1 "bob@pilot180.local" =
      [remoteFixture] ∧
    (runCycle envBobDown (fun _ => [remoteFixture]) []).1 "alice@pilot180.local" =
      [{ remoteFixture with seen := true }] ∧
    (runCycle envBobDown (fun _ => [remoteFixture]) []).2 =
      [parseEmail remoteFixture] :=
  sync_failure_isolated envBobDown (fun _ => [remoteFixture]) []
    (by decide) (by decide)

/-- Claim C4 counterexample: the soft-delete endpoint moves a SPAM row to
TRASH without touching `is_spam`, so after the mutation the row has
`isSpam = true` while `folder = TRASH` — the two fields disagree,
contradicting the claim that every mutator keeps `isSpam = (folder == SPAM)`
on every stored row. -/
theorem soft_delete_breaks_spam_lockstep :
    (softDelete [spamMail] "bob" "pilot180.local" 1).1 = Resp.ok ∧
    (softDelete [spamMail] "bob" "pilot180.local" 1).2 =
      [{ spamMail with folder := "TRASH" }] ∧
    ({ spamMail with folder := "TRASH" } : Mail).isSpam = true ∧
    (({ spamMail with folder := "TRASH" } : Mail).folder == "SPAM") = false := by
  decide

theorem bulkApply_isSpam (s : Store) (u d : String) (ids : List Nat) (a : String)
    (t : Option String) (ha : (a == "spam") = false) :
    (bulkApply s u d ids a t).2.map (fun m => m.isSpam) = s.map (fun m => m.isSpam) := by
  unfold bulkApply
  dsimp only
  repeat' split
  all_goals try rfl
  all_goals try (exfalso; apply (by simp [ha] : ¬((a == "spam") = true)); assumption)
  all_goals
    rw [List.map_map]
    apply List.map_congr_left
    intro x _
    by_cases hx :
        (((bulkEligible s u (qualifyEmail u d) ids).map (·.id)).contains x.id) = true
  all_goals first
    | rw [Function.comp_apply, if_pos hx]
    | rw [Function.comp_apply, if_neg hx]

/-- Claim C4 (amended): the single-message move keeps `isSpam` and `folder`
in lockstep on every row it touches, and the bulk `spam` action sets
`folder = SPAM` with `isSpam = true`; but the soft delete and the bulk
`delete` and `move` actions change `folder` while leaving every row's
`isSpam` exactly as it was, so a row moved out of SPAM by those operations
keeps `isSpam = true`. -/
theorem spam_lockstep_amended :
    (∀ s u d i t m', m' ∈ (moveMail s u d i (some t)).2 →
        m' ∈ s ∨ m'.isSpam = (m'.folder == "SPAM")) ∧
    (∀ s u d ids t m', m' ∈ (bulkApply s u d ids "spam" t).2 →
        m' ∈ s ∨ (m'.folder = "SPAM" ∧ m'.isSpam = true)) ∧
    (∀ s u d i, (softDelete s u d i).2.map (fun m => m.isSpam) =
        s.map (fun m => m.isSpam)) ∧
    (∀ s u d ids t, (bulkApply s u d ids "delete" t).2.map (fun m => m.isSpam) =
        s.map (fun m => m.isSpam)) ∧
    (∀ s u d ids t, (bulkApply s u d ids "move" t).2.map (fun m => m.isSpam) =
        s.map (fun m => m.isSpam)) := by
  refine ⟨?_, ?_, ?_, ?_, ?_⟩
  · intro s u d i t m' hm
    unfold moveMail at hm
    dsimp only at hm
    repeat' split at hm
    all_goals try dsimp only at hm
    all_goals try (left; exact hm)
    obtain ⟨x, hx, rfl⟩ := List.mem_map.mp hm
    by_cases hxi : (x.id == i) = true
    · rw [if_pos hxi]
      right
      rfl
    · rw [if_neg hxi]
      exact Or.inl hx
  · intro s u d ids t m' hm
    unfold bulkApply at hm
    dsimp only at hm
    repeat' split at hm
    all_goals try dsimp only at hm
    all_goals try (left; exact hm)
    all_goals try
      (exfalso;
       apply (by decide : ¬((("spam":String) == "delete") = true));
       assumption)
    obtain ⟨x, hx, rfl⟩ := List.mem_map.mp hm
    by_cases hxi :
        (((bulkEligible s u (qualifyEmail u d) ids).map (·.id)).contains x.id) = true
    · rw [if_pos hxi]
      right
      exact ⟨rfl, rfl⟩
    · rw [if_neg hxi]
      exact Or.inl hx
  · intro s u d i
    unfold softDelete
    dsimp only
    repeat' split
    all_goals try rfl
    rw [List.map_map]
    apply List.map_congr_left
    intro a _
    by_cases ha : (a.id == i) = true
    · rw [Function.comp_apply, if_pos ha]
    · rw [Function.comp_apply, if_neg ha]
  · intro s u d ids t
    exact bulkApply_isSpam s u d ids "delete" t (by decide)
  · intro s u d ids t
    exact bulkApply_isSpam s u d ids "move" t (by decide)

/-- Claim C4 (amended) witness: the single-move lockstep conjunct evaluated
on a concrete move into SPAM. -/
theorem spam_lockstep_amended_witness :
    ({ baseMail with folder := "SPAM", isSpam := true } : Mail) ∈ [baseMail] ∨
    ({ baseMail with folder := "SPAM", isSpam := true } : Mail).isSpam =
      (({ baseMail with folder := "SPAM", isSpam := true } : Mail).folder == "SPAM") :=
  spam_lockstep_amended.1 [baseMail] "bob" "pilot180.local" 1 "SPAM"
    { baseMail with folder := "SPAM", isSpam := true } (by decide)

/-- Claim C5: for every single-message mutation (read, unread, star, move,
soft delete, permanent delete) on an existing message, an acting identity
that is neither the row's `owner` nor contained in its `to_addresses`
(under the qualified email) is rejected with Forbidden (403) and the store
is unchanged.  (For move, a non-empty target is assumed because the route
rejects a missing target with 400 before the ownership check runs.) -/
theorem mutation_forbidden_for_stranger (s : Store) (u d : String) (i : Nat)
    (m : Mail) (hfind : findMail s i = some m)
    (hacc : canAccess m u (qualifyEmail u d) = false) :
    markRead s u d i = (Resp.forbidden, s) ∧
    markUnread s u d i = (Resp.forbidden, s) ∧
    (∀ b, setStar s u d i b = (Resp.forbidden, s)) ∧
    (∀ t : String, t ≠ "" → moveMail s u d i (some t) = (Resp.forbidden, s)) ∧
    softDelete s u d i = (Resp.forbidden, s) ∧
    permanentDelete s u d i = (Resp.forbidden, s) := by
  refine ⟨?_, ?_, ?_, ?_, ?_, ?_⟩
  · simp [markRead, hfind, hacc]
  · simp [markUnread, hfind, hacc]
  · intro b
    simp [setStar, hfind, hacc]
  · intro t ht
    have ht' : (t == "") = false := by
      simpa using ht
    simp [moveMail, ht', hfind, hacc]
  · simp [softDelete, hfind, hacc]
  · simp [permanentDelete, hfind, hacc]

/-- Claim C5 witness: the ownership rejection evaluated for `bob` acting on
a mail owned by `alice` with no recipients. -/
theorem mutation_forbidden_for_stranger_witness :
    findMail [aliceOnlyMail] 2 = some aliceOnlyMail ∧
    canAccess aliceOnlyMail "bob" (qualifyEmail "bob" "pilot180.local") = false ∧
    markRead [aliceOnlyMail] "bob" "pilot180.local" 2 =
      (Resp.forbidden, [aliceOnlyMail]) :=
  ⟨by decide, by decide,
   (mutation_forbidden_for_stranger [aliceOnlyMail] "bob" "pilot180.local" 2
      aliceOnlyMail (by decide) (by decide)).1⟩

/-- Claim C6 counterexample: the folder value `ARCHIVE` lies outside the
enumeration (INBOX, SENT, SPAM, TRASH), yet the single-message move and the
bulk move both accept it and store it verbatim as the row's folder,
contradicting the claim that such values are rejected as invalid. -/
theorem move_accepts_arbitrary_folder :
    moveMail [baseMail] "bob" "pilot180.local" 1 (some "ARCHIVE") =
      (Resp.ok, [{ baseMail with folder := "ARCHIVE", isSpam := false }]) ∧
    bulkApply [baseMail] "bob" "pilot180.local" [1] "move" (some "ARCHIVE") =
      (BulkResp.ok 1, [{ baseMail with folder := "ARCHIVE" }]) ∧
    "ARCHIVE" ∉ (["INBOX", "SENT", "SPAM", "TRASH"] : List String) := by
  decide

/-- Claim C6 (amended): only a missing or empty (JS-falsy) target folder is
rejected with 400 by the move endpoints; every non-empty target string —
with no check against the folder enumeration — passes the validation, and
whatever rows the move updates receive that string verbatim as their
folder. -/
theorem move_folder_amended :
    (∀ s u d i, moveMail s u d i none = (Resp.badRequest, s) ∧
        moveMail s u d i (some "") = (Resp.badRequest, s)) ∧
    (∀ s u d i t, t ≠ "" → (moveMail s u d i (some t)).1 ≠ Resp.badRequest) ∧
    (∀ s u d i t m', m' ∈ (moveMail s u d i (some t)).2 →
        m' ∈ s ∨ m'.folder = t) ∧
    (∀ s u d ids t, ids ≠ [] → t ≠ "" →
        (bulkApply s u d ids "move" (some t)).1 ≠ BulkResp.badRequest) ∧
    (∀ s u d ids t m', m' ∈ (bulkApply s u d ids "move" (some t)).2 →
        m' ∈ s ∨ m'.folder = t) := by
  refine ⟨?_, ?_, ?_, ?_, ?_⟩
  · intro s u d i
    constructor <;> simp [moveMail]
  · intro s u d i t ht
    have ht' : (t == "") = false := by simpa using ht
    unfold moveMail
    dsimp only
    rw [ht']
    repeat' split
    all_goals try (exfalso; apply Bool.false_ne_true; assumption)
    all_goals simp
  · intro s u d i t m' hm
    unfold moveMail at hm
    dsimp only at hm
    repeat' split at hm
    all_goals try dsimp only at hm
    all_goals try (left; exact hm)
    obtain ⟨x, hx, rfl⟩ := List.mem_map.mp hm
    by_cases hxi : (x.id == i) = true
    · rw [if_pos hxi]
      right
      rfl
    · rw [if_neg hxi]
      exact Or.inl hx
  · intro s u d ids t hids ht
    have hids' : ids.isEmpty = false := by
      cases hI : ids.isEmpty
      · rfl
      · exact absurd (List.isEmpty_iff.mp hI) hids
    have ht' : (t == "") = false := by simpa using ht
    unfold bulkApply
    dsimp only
    rw [hids', ht']
    repeat' split
    all_goals try (exfalso; apply Bool.false_ne_true; assumption)
    all_goals try
      (exfalso;
       apply (fun hn : ¬((("move" : String) == "move") = true) => hn (by decide));
       assumption)
    all_goals simp
  · intro s u d ids t m' hm
    unfold bulkApply at hm
    dsimp only at hm
    repeat' split at hm
    all_goals try dsimp only at hm
    all_goals try (left; exact hm)
    all_goals try
      (exfalso;
       apply (by decide : ¬((("move" : String) == "delete") = true));
       assumption)
    obtain ⟨x, hx, rfl⟩ := List.mem_map.mp hm
    by_cases hxi :
        (((bulkEligible s u (qualifyEmail u d) ids).map (·.id)).contains x.id) = true
    · rw [if_pos hxi]
      right
      rfl
    · rw [if_neg hxi]
      exact Or.inl hx

/-- Claim C6 (amended) witness: the no-enumeration-check conjunct evaluated
at the out-of-enumeration target `ARCHIVE`. -/
theorem move_folder_amended_witness :
    (moveMail [baseMail] "bob" "pilot180.local" 1 (some "ARCHIVE")).1 ≠
      Resp.badRequest :=
  move_folder_amended.2.1 [baseMail] "bob" "pilot180.local" 1 "ARCHIVE"
    (by decide)

/-- Claim C7 counterexample: a single already-read SPAM message is counted
by the counts endpoint's `spam` counter (`COUNT(*) FILTER (WHERE folder =
'SPAM')` has no read filter), while the number of unread spam messages is
zero — so the spam count is not the number of unread messages in that view,
contradicting the claim. -/
theorem counts_spam_includes_read :
    (countsFor [readSpamMail] "bob" "pilot180.local").spam = 1 ∧
    specUnreadInFolder [readSpamMail] "bob" "pilot180.local" "SPAM" = 0 := by
  decide

/-- Claim C7 (amended): the counts endpoint returns unread-only counts for
`inbox`, `sent`, and `important` (starred regardless of folder), but its
`spam` and `trash` counters count **all** messages in those folders for the
owner's view, read or unread. -/
theorem counts_amended (s : Store) (u d : String) :
    (countsFor s u d).inbox = specUnreadInFolder s u d "INBOX" ∧
    (countsFor s u d).sent = specUnreadInFolder s u d "SENT" ∧
    (countsFor s u d).important = specUnreadStarred s u d ∧
    (countsFor s u d).spam = allInFolder s u d "SPAM" ∧
    (countsFor s u d).trash = allInFolder s u d "TRASH" := by
  refine ⟨?_, ?_, ?_, ?_, ?_⟩
  all_goals
    simp only [countsFor, specUnreadInFolder, specUnreadStarred, allInFolder,
      inboxCond]
    rw [List.filter_filter]
    congr 1
    apply List.filter_congr
    intro x _
    generalize (x.owner == u || x.toAddresses.contains (qualifyEmail u d)) = A
  · generalize (x.folder == "INBOX") = B
    generalize x.isRead = C
    cases A <;> cases B <;> cases C <;> rfl
  · generalize (x.folder == "SENT") = B
    generalize x.isRead = C
    cases A <;> cases B <;> cases C <;> rfl
  · generalize x.isStarred = B
    generalize x.isRead = C
    cases A <;> cases B <;> cases C <;> rfl
  · generalize (x.folder == "SPAM") = B
    cases A <;> cases B <;> rfl
  · generalize (x.folder == "TRASH") = B
    cases A <;> cases B <;> rfl

/-- With pairwise-distinct row ids (the primary key), a row's id appears in
the bulk `allowedIds` selection exactly when the row itself is eligible. -/
theorem contains_allowed_iff (s : Store) (u e : String) (ids : List Nat)
    (hdist : idsDistinct s) (m : Mail) (hm : m ∈ s) :
    ((bulkEligible s u e ids).map (·.id)).contains m.id =
      (ids.contains m.id && canAccess m u e) := by
  cases hc : (ids.contains m.id && canAccess m u e)
  · cases hL : ((bulkEligible s u e ids).map (·.id)).contains m.id
    · rfl
    · exfalso
      have hmem : m.id ∈ (bulkEligible s u e ids).map (·.id) := List.elem_iff.mp hL
      obtain ⟨x, hx, hxid⟩ := List.mem_map.mp hmem
      have hx' := List.mem_filter.mp hx
      have hxm : x = m := by
        by_contra hne
        exact (List.Pairwise.forall (fun _ _ h => h.symm) hdist) hx'.1 hm hne hxid
      rw [hxm] at hx'
      rw [hx'.2] at hc
      cases hc
  · have hmE : m ∈ bulkEligible s u e ids := List.mem_filter.mpr ⟨hm, hc⟩
    exact List.elem_iff.mpr (List.mem_map.mpr ⟨m, hmE, rfl⟩)

/-- Claim C8 counterexample: a bulk call whose only requested id belongs to
a row the caller neither owns nor receives fails with Forbidden (403)
instead of succeeding with the ineligible id silently excluded — the
eligible-set-empty case is an error, contradicting the claim that the call
does not fail even then. -/
theorem bulk_fails_when_no_eligible :
    bulkApply [aliceOnlyMail] "bob" "pilot180.local" [2] "read" none =
      (BulkResp.forbidden, [aliceOnlyMail]) := by
  decide

/-- Claim C8 (amended): when at least one requested id is eligible, every
bulkApply action silently excludes the ineligible ids — ineligible rows are
untouched — and returns count equal to the number of eligible rows it was
applied to: unconditionally for `read` and `unread`, and for the
folder-changing `delete`, `spam`, and `move` actions unless the update
would violate the unique (messageId, folder, owner) constraint, in which
case the statement aborts (500) with no change and no count; a `move` with
a missing or empty target returns 400 with no count and no change; and when
the eligible set is empty the call fails with Forbidden (403) and no row
changes.  Row ids are assumed pairwise distinct, as the table's primary key
guarantees. -/
theorem bulk_amended (s : Store) (u d : String) (ids : List Nat)
    (hdist : idsDistinct s) :
    (∀ a t, bulkEligible s u (qualifyEmail u d) ids = [] → ids ≠ [] →
        bulkApply s u d ids a t = (BulkResp.forbidden, s)) ∧
    (∀ t, bulkEligible s u (qualifyEmail u d) ids ≠ [] →
        bulkApply s u d ids "read" t =
          (BulkResp.ok (bulkEligible s u (qualifyEmail u d) ids).length,
           s.map (fun m =>
             if ids.contains m.id && canAccess m u (qualifyEmail u d) then
               { m with isRead := true }
             else m))) ∧
    (∀ t, bulkEligible s u (qualifyEmail u d) ids ≠ [] →
        bulkApply s u d ids "unread" t =
          (BulkResp.ok (bulkEligible s u (qualifyEmail u d) ids).length,
           s.map (fun m =>
             if ids.contains m.id && canAccess m u (qualifyEmail u d) then
               { m with isRead := false }
             else m))) ∧
    (∀ t, bulkEligible s u (qualifyEmail u d) ids ≠ [] →
        bulkApply s u d ids "delete" t =
          (BulkResp.ok (bulkEligible s u (qualifyEmail u d) ids).length,
           s.map (fun m =>
             if ids.contains m.id && canAccess m u (qualifyEmail u d) then
               { m with folder := "TRASH" }
             else m)) ∨
        bulkApply s u d ids "delete" t = (BulkResp.serverError, s)) ∧
    (∀ t, bulkEligible s u (qualifyEmail u d) ids ≠ [] →
        bulkApply s u d ids "spam" t =
          (BulkResp.ok (bulkEligible s u (qualifyEmail u d) ids).length,
           s.map (fun m =>
             if ids.contains m.id && canAccess m u (qualifyEmail u d) then
               { m with folder := "SPAM", isSpam := true }
             else m)) ∨
        bulkApply s u d ids "spam" t = (BulkResp.serverError, s)) ∧
    (∀ tv : String, tv ≠ "" → bulkEligible s u (qualifyEmail u d) ids ≠ [] →
        bulkApply s u d ids "move" (some tv) =
          (BulkResp.ok (bulkEligible s u (qualifyEmail u d) ids).length,
           s.map (fun m =>
             if ids.contains m.id && canAccess m u (qualifyEmail u d) then
               { m with folder := tv }
             else m)) ∨
        bulkApply s u d ids "move" (some tv) = (BulkResp.serverError, s)) ∧
    (bulkEligible s u (qualifyEmail u d) ids ≠ [] →
        bulkApply s u d ids "move" none = (BulkResp.badRequest, s) ∧
        bulkApply s u d ids "move" (some "") = (BulkResp.badRequest, s)) := by
  have hpre : bulkEligible s u (qualifyEmail u d) ids ≠ [] →
      ids.isEmpty = false ∧
      ((bulkEligible s u (qualifyEmail u d) ids).map (·.id)).isEmpty = false := by
    intro hne
    constructor
    · cases hI : ids.isEmpty
      · rfl
      · exfalso
        apply hne
        rw [List.isEmpty_iff.mp hI]
        refine List.filter_eq_nil_iff.mpr (fun x _ => ?_)
        simp [bulkEligible]
    · cases hI : ((bulkEligible s u (qualifyEmail u d) ids).map (·.id)).isEmpty
      · rfl
      · exact absurd (List.map_eq_nil_iff.mp (List.isEmpty_iff.mp hI)) hne
  refine ⟨?_, ?_, ?_, ?_, ?_, ?_, ?_⟩
  · intro a t hempty hids
    have hids' : ids.isEmpty = false := by
      cases hI : ids.isEmpty
      · rfl
      · exact absurd (List.isEmpty_iff.mp hI) hids
    unfold bulkApply
    dsimp only
    rw [hids', hempty]
    simp
  · intro t hne
    obtain ⟨hids', hAllowNe⟩ := hpre hne
    unfold bulkApply
    dsimp only
    rw [hids', hAllowNe,
        show (("read" : String) == "delete") = false from rfl,
        show (("read" : String) == "spam") = false from rfl,
        show (("read" : String) == "move") = false from rfl]
    simp only [show (("read" : String) == "read") = true from rfl,
      Bool.true_or, Bool.false_eq_true, eq_self_iff_true, if_false, if_true]
    have hmE : s.map (fun m =>
        if ((bulkEligible s u (qualifyEmail u d) ids).map (·.id)).contains m.id then
          { m with isRead := true }
        else m) =
        s.map (fun m =>
          if ids.contains m.id && canAccess m u (qualifyEmail u d) then
            { m with isRead := true }
          else m) := by
      apply List.map_congr_left
      intro m hm
      rw [contains_allowed_iff s u (qualifyEmail u d) ids hdist m hm]
    rw [hmE, List.length_map]
  · intro t hne
    obtain ⟨hids', hAllowNe⟩ := hpre hne
    unfold bulkApply
    dsimp only
    rw [hids', hAllowNe,
        show (("unread" : String) == "delete") = false from rfl,
        show (("unread" : String) == "spam") = false from rfl,
        show (("unread" : String) == "move") = false from rfl]
    simp only [show (("unread" : String) == "read") = false from rfl,
      show (("unread" : String) == "unread") = true from rfl,
      Bool.false_or, Bool.false_eq_true, eq_self_iff_true, if_false, if_true]
    have hmE : s.map (fun m =>
        if ((bulkEligible s u (qualifyEmail u d) ids).map (·.id)).contains m.id then
          { m with isRead := false }
        else m) =
        s.map (fun m =>
          if ids.contains m.id && canAccess m u (qualifyEmail u d) then
            { m with isRead := false }
          else m) := by
      apply List.map_congr_left
      intro m hm
      rw [contains_allowed_iff s u (qualifyEmail u d) ids hdist m hm]
    rw [hmE, List.length_map]
  · intro t hne
    obtain ⟨hids', hAllowNe⟩ := hpre hne
    unfold bulkApply
    dsimp only
    rw [hids', hAllowNe, show (("delete" : String) == "delete") = true from rfl]
    simp only [Bool.false_eq_true, eq_self_iff_true, if_false, if_true]
    have hmE : s.map (fun m =>
        if ((bulkEligible s u (qualifyEmail u d) ids).map (·.id)).contains m.id then
          { m with folder := "TRASH" }
        else m) =
        s.map (fun m =>
          if ids.contains m.id && canAccess m u (qualifyEmail u d) then
            { m with folder := "TRASH" }
          else m) := by
      apply List.map_congr_left
      intro m hm
      rw [contains_allowed_iff s u (qualifyEmail u d) ids hdist m hm]
    by_cases hg : uniqueKeyOk (s.map (fun m =>
        if ((bulkEligible s u (qualifyEmail u d) ids).map (·.id)).contains m.id then
          { m with folder := "TRASH" }
        else m)) = true
    · left
      rw [if_pos hg, hmE, List.length_map]
    · right
      rw [if_neg hg]
  · intro t hne
    obtain ⟨hids', hAllowNe⟩ := hpre hne
    unfold bulkApply
    dsimp only
    rw [hids', hAllowNe,
        show (("spam" : String) == "delete") = false from rfl,
        show (("spam" : String) == "spam") = true from rfl]
    simp only [Bool.false_eq_true, eq_self_iff_true, if_false, if_true]
    have hmE : s.map (fun m =>
        if ((bulkEligible s u (qualifyEmail u d) ids).map (·.id)).contains m.id then
          { m with folder := "SPAM", isSpam := true }
        else m) =
        s.map (fun m =>
          if ids.contains m.id && canAccess m u (qualifyEmail u d) then
            { m with folder := "SPAM", isSpam := true }
          else m) := by
      apply List.map_congr_left
      intro m hm
      rw [contains_allowed_iff s u (qualifyEmail u d) ids hdist m hm]
    by_cases hg : uniqueKeyOk (s.map (fun m =>
        if ((bulkEligible s u (qualifyEmail u d) ids).map (·.id)).contains m.id then
          { m with folder := "SPAM", isSpam := true }
        else m)) = true
    · left
      rw [if_pos hg, hmE, List.length_map]
    · right
      rw [if_neg hg]
  · intro tv htv hne
    obtain ⟨hids', hAllowNe⟩ := hpre hne
    have htv' : (tv == "") = false := by simpa using htv
    unfold bulkApply
    dsimp only
    rw [hids', hAllowNe,
        show (("move" : String) == "delete") = false from rfl,
        show (("move" : String) == "spam") = false from rfl,
        show (("move" : String) == "move") = true from rfl, htv']
    simp only [Bool.false_eq_true, eq_self_iff_true, if_false, if_true]
    have hmE : s.map (fun m =>
        if ((bulkEligible s u (qualifyEmail u d) ids).map (·.id)).contains m.id then
          { m with folder := tv }
        else m) =
        s.map (fun m =>
          if ids.contains m.id && canAccess m u (qualifyEmail u d) then
            { m with folder := tv }
          else m) := by
      apply List.map_congr_left
      intro m hm
      rw [contains_allowed_iff s u (qualifyEmail u d) ids hdist m hm]
    by_cases hg : uniqueKeyOk (s.map (fun m =>
        if ((bulkEligible s u (qualifyEmail u d) ids).map (·.id)).contains m.id then
          { m with folder := tv }
        else m)) = true
    · left
      rw [if_pos hg, hmE, List.length_map]
    · right
      rw [if_neg hg]
  · intro hne
    obtain ⟨hids', hAllowNe⟩ := hpre hne
    constructor
    · unfold bulkApply
      dsimp only
      rw [hids', hAllowNe,
          show (("move" : String) == "delete") = false from rfl,
          show (("move" : String) == "spam") = false from rfl,
          show (("move" : String) == "move") = true from rfl]
      simp only [Bool.false_eq_true, eq_self_iff_true, if_false, if_true]
    · unfold bulkApply
      dsimp only
      rw [hids', hAllowNe,
          show (("move" : String) == "delete") = false from rfl,
          show (("move" : String) == "spam") = false from rfl,
          show (("move" : String) == "move") = true from rfl,
          show (("" : String) == "") = true from rfl]
      simp only [Bool.false_eq_true, eq_self_iff_true, if_false, if_true]

/-- Claim C8 (amended) witness: the bulk `read` and `delete` actions
evaluated by `bob` over one owned row and one foreign row. -/
theorem bulk_amended_witness :
    bulkEligible [baseMail, aliceOnlyMail] "bob"
      (qualifyEmail "bob" "pilot180.local") [1, 2] ≠ [] ∧
    bulkApply [baseMail, aliceOnlyMail] "bob" "pilot180.local" [1, 2]
        "read" none =
      (BulkResp.ok (bulkEligible [baseMail, aliceOnlyMail] "bob"
          (qualifyEmail "bob" "pilot180.local") [1, 2]).length,
       List.map (fun m =>
         if [1, 2].contains m.id &&
             canAccess m "bob" (qualifyEmail "bob" "pilot180.local") then
           { m with isRead := true }
         else m) [baseMail, aliceOnlyMail]) ∧
    (bulkApply [baseMail, aliceOnlyMail] "bob" "pilot180.local" [1, 2]
          "delete" none =
        (BulkResp.ok (bulkEligible [baseMail, aliceOnlyMail] "bob"
            (qualifyEmail "bob" "pilot180.local") [1, 2]).length,
         List.map (fun m =>
           if [1, 2].contains m.id &&
               canAccess m "bob" (qualifyEmail "bob" "pilot180.local") then
             { m with folder := "TRASH" }
           else m) [baseMail, aliceOnlyMail]) ∨
      bulkApply [baseMail, aliceOnlyMail] "bob" "pilot180.local" [1, 2]
          "delete" none = (BulkResp.serverError, [baseMail, aliceOnlyMail])) :=
  ⟨by decide,
   (bulk_amended [baseMail, aliceOnlyMail] "bob" "pilot180.local" [1, 2]
      (by unfold idsDistinct; decide)).2.1 none (by decide),
   (bulk_amended [baseMail, aliceOnlyMail] "bob" "pilot180.local" [1, 2]
      (by unfold idsDistinct; decide)).2.2.2.1 none (by decide)⟩

/-- Claim C10: the inbox listing returns exactly the rows whose `owner`
equals the requester or whose `to_addresses` contains the requester's
qualified email, newest first by `createdAt` and capped at 200 rows, with
no filter on `folder`: any matching row — whatever folder it is filed in,
including SENT, SPAM, or TRASH — is included (shown here whenever the
matching set fits under the cap). -/
theorem inbox_ignores_folder (s : Store) (u d : String) :
    (∀ m, m ∈ s → inboxCond u (qualifyEmail u d) m = true →
        (s.filter (inboxCond u (qualifyEmail u d))).length ≤ 200 →
        m ∈ listInbox s u d) ∧
    (∀ m, m ∈ listInbox s u d → inboxCond u (qualifyEmail u d) m = true) ∧
    (listInbox s u d).length ≤ 200 ∧
    (listInbox s u d).Pairwise newerEq := by
  refine ⟨?_, ?_, ?_, ?_⟩
  · intro m hm hc hlen
    unfold listInbox
    have hmf : m ∈ s.filter (inboxCond u (qualifyEmail u d)) :=
      List.mem_filter.mpr ⟨hm, hc⟩
    have hperm := List.perm_insertionSort newerEq
      (s.filter (inboxCond u (qualifyEmail u d)))
    have hlen' : (List.insertionSort newerEq
        (s.filter (inboxCond u (qualifyEmail u d)))).length ≤ 200 := by
      rw [hperm.length_eq]
      exact hlen
    rw [List.take_of_length_le hlen']
    exact hperm.mem_iff.mpr hmf
  · intro m hm
    unfold listInbox at hm
    have hm1 := List.mem_of_mem_take hm
    have hperm := List.perm_insertionSort newerEq
      (s.filter (inboxCond u (qualifyEmail u d)))
    exact (List.mem_filter.mp (hperm.mem_iff.mp hm1)).2
  · exact List.length_take_le _ _
  · unfold listInbox
    exact (List.sorted_insertionSort newerEq _).sublist (List.take_sublist _ _)

/-- Claim C10 witness: a row filed in SPAM owned by the requester appears
in the inbox listing. -/
theorem inbox_ignores_folder_witness :
    spamMail.folder = "SPAM" ∧
    spamMail ∈ listInbox [spamMail] "bob" "pilot180.local" :=
  ⟨rfl,
   (inbox_ignores_folder [spamMail] "bob" "pilot180.local").1 spamMail
     (by decide) (by decide) (by decide)⟩

end EmailRepo
